import Mathlib

/-!
Verification of the SavingsVault contract (`contract/contracts/SavingsVault.sol`)
and the frontend transaction handlers of the vault app, as a shallow embedding.

Contract model: `uint256` values are embedded as `Nat` (Solidity 0.8 checked
arithmetic never wraps; every arithmetic step in the contract is guarded by a
`require` that makes subtraction total, and additions only ever credit amounts
that were first moved into custody, so no modular reduction is observable in
any behaviour proved below).  A reverted call restores the pre-call state
(EVM all-or-nothing transaction semantics), rendered by `exec`.

The wINJ asset contract is not part of this repository (it is a pre-deployed
external token); it is modelled from the spec: the asset surface of section 6
(`balanceOf`, `allowance`, `transfer`, `transferFrom`), where a transfer fails
exactly on insufficient balance and a pull-transfer additionally on
insufficient allowance.
-/

namespace VaultModel

/-- EVM account identifiers. -/
abbrev Addr := Nat

/-- The address at which the SavingsVault contract itself is deployed
(`address(this)` inside the contract). -/
def vaultAddr : Addr := 0

/-- Modelled from the spec: storage of the external wINJ ERC20 asset contract
(section 6 asset surface; the token itself is pre-deployed and outside this
repository). -/
structure ERC20 where
  balanceOf : Addr → Nat
  allowance : Addr → Addr → Nat

/-- Balance map after moving `amount` from `sender` to `to`: debit first,
then credit, reading the already-debited map (so a self-transfer is the
identity when funded). -/
def ERC20.transferBal (bal : Addr → Nat) (sender dst : Addr) (amount : Nat) : Addr → Nat :=
  let bal1 := Function.update bal sender (bal sender - amount)
  Function.update bal1 dst (bal1 dst + amount)

/-- Write one (owner, spender) allowance cell. -/
def setAllowance (al : Addr → Addr → Nat) (owner spender : Addr) (v : Nat) :
    Addr → Addr → Nat :=
  Function.update al owner (Function.update (al owner) spender v)

/-- Modelled from the spec: `transfer(to, amount)` of the asset contract; fails
(returns `none`, which the vault observes as a `false`/revert) exactly when the
sender balance is insufficient. -/
def ERC20.transfer (t : ERC20) (sender dst : Addr) (amount : Nat) : Option ERC20 :=
  if amount ≤ t.balanceOf sender then
    some { t with balanceOf := ERC20.transferBal t.balanceOf sender dst amount }
  else
    none

/-- Modelled from the spec: `transferFrom(from, to, amount)` invoked by
`spender`; fails on insufficient allowance or insufficient sender balance, and
on success moves the amount and consumes the allowance. -/
def ERC20.transferFrom (t : ERC20) (spender sender dst : Addr) (amount : Nat) : Option ERC20 :=
  if amount ≤ t.allowance sender spender ∧ amount ≤ t.balanceOf sender then
    some { balanceOf := ERC20.transferBal t.balanceOf sender dst amount
           allowance := setAllowance t.allowance sender spender
                          (t.allowance sender spender - amount) }
  else
    none

/-- Events emitted by SavingsVault. -/
inductive Ev
  | Deposited (user : Addr) (amount : Nat)
  | Withdrawn (user : Addr) (amount : Nat)
  deriving DecidableEq, Repr

/-- Revert reasons of the four `require` statements of SavingsVault, under the
names the spec gives them (`amount=0` ↦ invalidAmount, `transferFrom failed` ↦
pullTransferFailed, `insufficient balance` ↦ insufficientBalance,
`transfer failed` ↦ pushTransferFailed). -/
inductive VaultError
  | invalidAmount
  | pullTransferFailed
  | insufficientBalance
  | pushTransferFailed
  deriving DecidableEq, Repr

/-- Combined on-chain state relevant to the vault: the external token storage,
the vault mapping `mapping(address => uint256) private balances`, and the
vault event log. -/
structure Chain where
  token : ERC20
  balances : Addr → Nat
  log : List Ev

/-- `deposit(uint256 amount)` called by `sender` (lines 24-30 of
SavingsVault.sol): require amount > 0; require
`wINJ.transferFrom(msg.sender, address(this), amount)`; then credit
`balances[msg.sender]` and emit `Deposited`. -/
def deposit (sender : Addr) (amount : Nat) (s : Chain) : Except VaultError Chain :=
  if amount = 0 then
    .error .invalidAmount
  else
    match s.token.transferFrom vaultAddr sender vaultAddr amount with
    | none => .error .pullTransferFailed
    | some t =>
        .ok { token := t
              balances := Function.update s.balances sender (s.balances sender + amount)
              log := s.log ++ [Ev.Deposited sender amount] }

/-- State immediately after line 36 of SavingsVault.sol
(`balances[msg.sender] -= amount`), before the external `wINJ.transfer` call
of line 37. -/
def debit (sender : Addr) (amount : Nat) (s : Chain) : Chain :=
  { s with balances := Function.update s.balances sender (s.balances sender - amount) }

/-- Lines 37-39 of SavingsVault.sol: the external push-transfer back to the
caller and the `Withdrawn` event, executed on the already-debited state. -/
def pushPhase (sender : Addr) (amount : Nat) (s : Chain) : Except VaultError Chain :=
  match s.token.transfer vaultAddr sender amount with
  | none => .error .pushTransferFailed
  | some t => .ok { s with token := t, log := s.log ++ [Ev.Withdrawn sender amount] }

/-- `withdraw(uint256 amount)` called by `sender` (lines 32-40 of
SavingsVault.sol): require amount > 0; require sufficient tracked balance;
debit; then push-transfer and emit. -/
def withdraw (sender : Addr) (amount : Nat) (s : Chain) : Except VaultError Chain :=
  if amount = 0 then
    .error .invalidAmount
  else if s.balances sender < amount then
    .error .insufficientBalance
  else
    pushPhase sender amount (debit sender amount s)

/-- `myBalance()` called by `sender` (lines 42-44): pure read of the caller
tracked balance. -/
def myBalance (sender : Addr) (s : Chain) : Nat :=
  s.balances sender

/-- Transaction-level result of a vault call: a revert restores the pre-call
state (EVM all-or-nothing semantics for a reverted top-level call). -/
def exec (f : Chain → Except VaultError Chain) (s : Chain) : Chain :=
  match f s with
  | .ok s' => s'
  | .error _ => s

theorem exec_eq_of_ok {f : Chain → Except VaultError Chain} {s s' : Chain}
    (h : f s = .ok s') : exec f s = s' := by
  simp [exec, h]

theorem exec_eq_of_error {f : Chain → Except VaultError Chain} {s : Chain} {e : VaultError}
    (h : f s = .error e) : exec f s = s := by
  simp [exec, h]

theorem transferBal_ne (bal : Addr → Nat) (u v : Addr) (a : Nat) (w : Addr)
    (hu : w ≠ u) (hv : w ≠ v) : ERC20.transferBal bal u v a w = bal w := by
  unfold ERC20.transferBal
  rw [Function.update_noteq hv, Function.update_noteq hu]

theorem transferBal_dst (bal : Addr → Nat) (u v : Addr) (a : Nat)
    (hvu : v ≠ u) : ERC20.transferBal bal u v a v = bal v + a := by
  unfold ERC20.transferBal
  rw [Function.update_same, Function.update_noteq hvu]

theorem transferBal_src (bal : Addr → Nat) (u v : Addr) (a : Nat)
    (huv : u ≠ v) : ERC20.transferBal bal u v a u = bal u - a := by
  unfold ERC20.transferBal
  rw [Function.update_noteq huv, Function.update_same]

/-- Full characterization of a successful deposit: guards and resulting state. -/
theorem deposit_ok_iff (s : Chain) (u : Addr) (a : Nat) (s' : Chain) :
    deposit u a s = .ok s' ↔
      0 < a ∧ a ≤ s.token.allowance u vaultAddr ∧ a ≤ s.token.balanceOf u ∧
      s' = { token := { balanceOf := ERC20.transferBal s.token.balanceOf u vaultAddr a
                        allowance := setAllowance s.token.allowance u vaultAddr
                                       (s.token.allowance u vaultAddr - a) }
             balances := Function.update s.balances u (s.balances u + a)
             log := s.log ++ [Ev.Deposited u a] } := by
  by_cases h0 : a = 0
  · subst h0
    simp [deposit]
  · by_cases hc : a ≤ s.token.allowance u vaultAddr ∧ a ≤ s.token.balanceOf u
    · simp [deposit, ERC20.transferFrom, h0, hc, Nat.pos_of_ne_zero h0, eq_comm]
    · simp only [deposit, ERC20.transferFrom, if_neg h0, if_neg hc]
      simp only [not_and, not_le] at hc
      constructor
      · intro h
        exact absurd h (by simp)
      · rintro ⟨-, h1, h2, -⟩
        exact absurd h2 (by omega)

/-- Full characterization of a successful withdraw: guards and resulting state. -/
theorem withdraw_ok_iff (s : Chain) (u : Addr) (a : Nat) (s' : Chain) :
    withdraw u a s = .ok s' ↔
      0 < a ∧ a ≤ s.balances u ∧ a ≤ s.token.balanceOf vaultAddr ∧
      s' = { token := { s.token with
                        balanceOf := ERC20.transferBal s.token.balanceOf vaultAddr u a }
             balances := Function.update s.balances u (s.balances u - a)
             log := s.log ++ [Ev.Withdrawn u a] } := by
  by_cases h0 : a = 0
  · subst h0
    simp [withdraw]
  · by_cases hb : s.balances u < a
    · simp [withdraw, h0, hb]
      try omega
    · by_cases hc : a ≤ s.token.balanceOf vaultAddr
      · simp [withdraw, h0, hb, pushPhase, debit, ERC20.transfer, hc,
          Nat.pos_of_ne_zero h0, Nat.not_lt.mp hb, eq_comm]
      · simp [withdraw, h0, hb, pushPhase, debit, ERC20.transfer, hc]

/-- Claim C2: `withdraw(a)` fails with `InvalidAmount` when a = 0 (the only
uint256 rendering of a ≤ 0), with `InsufficientBalance` when 0 < a and the
caller tracked balance is below a, and with `PushTransferFailed` when the push
of the external asset fails (vault custody below a); in every failure case the
transaction-level state — every tracked balance and every asset balance — is
left unchanged. -/
theorem withdraw_error_cases (s : Chain) (u : Addr) (a : Nat) :
    (a = 0 → withdraw u a s = .error .invalidAmount) ∧
    (0 < a → s.balances u < a → withdraw u a s = .error .insufficientBalance) ∧
    (0 < a → a ≤ s.balances u → s.token.balanceOf vaultAddr < a →
      withdraw u a s = .error .pushTransferFailed) ∧
    (∀ e, withdraw u a s = .error e → exec (withdraw u a) s = s) := by
  refine ⟨?_, ?_, ?_, ?_⟩
  · intro h
    simp [withdraw, h]
  · intro h1 h2
    have h0 : a ≠ 0 := by omega
    simp [withdraw, h0, h2]
  · intro h1 h2 h3
    have h0 : a ≠ 0 := by omega
    have hb : ¬ s.balances u < a := by omega
    have hc : ¬ a ≤ s.token.balanceOf vaultAddr := by omega
    simp [withdraw, h0, hb, pushPhase, debit, ERC20.transfer, hc]
  · intro e he
    exact exec_eq_of_error he

/-- Claim C3: `deposit(a)` fails with `InvalidAmount` when a = 0 (the only
uint256 rendering of a ≤ 0) and with `PullTransferFailed` when the pull of the
external asset from the caller does not succeed (insufficient allowance or
insufficient wallet balance); on success it credits the caller tracked balance
by exactly a and emits `Deposited(caller, a)`; a failed pull reverts the whole
call, so it never credits any balance. -/
theorem deposit_spec (s : Chain) (u : Addr) (a : Nat) :
    (a = 0 → deposit u a s = .error .invalidAmount) ∧
    (0 < a → (s.token.allowance u vaultAddr < a ∨ s.token.balanceOf u < a) →
      deposit u a s = .error .pullTransferFailed) ∧
    (∀ s', deposit u a s = .ok s' →
      s'.balances u = s.balances u + a ∧ s'.log = s.log ++ [Ev.Deposited u a]) ∧
    (∀ e, deposit u a s = .error e → exec (deposit u a) s = s) := by
  refine ⟨?_, ?_, ?_, ?_⟩
  · intro h
    simp [deposit, h]
  · intro h1 h2
    have h0 : a ≠ 0 := by omega
    have hc : ¬ (a ≤ s.token.allowance u vaultAddr ∧ a ≤ s.token.balanceOf u) := by omega
    simp [deposit, ERC20.transferFrom, h0, hc]
  · intro s' hs'
    obtain ⟨-, -, -, h⟩ := (deposit_ok_iff s u a s').mp hs'
    subst h
    simp [Function.update_same]
  · intro e he
    exact exec_eq_of_error he

/-- Claim C4: in a successful `withdraw(a)` the caller tracked balance is
debited strictly before the external push-transfer: the whole push phase of
the call operates on the already-debited state, on which `myBalance` (what a
reentrant call would read) already returns the reduced balance, and the push
phase never writes the tracked-balance mapping again. -/
theorem withdraw_debits_before_push (s : Chain) (u : Addr) (a : Nat)
    (h1 : 0 < a) (h2 : a ≤ s.balances u) :
    withdraw u a s = pushPhase u a (debit u a s) ∧
    myBalance u (debit u a s) + a = s.balances u ∧
    (∀ s', pushPhase u a (debit u a s) = .ok s' → s'.balances = (debit u a s).balances) := by
  refine ⟨?_, ?_, ?_⟩
  · have h0 : a ≠ 0 := by omega
    have hb : ¬ s.balances u < a := by omega
    simp [withdraw, h0, hb]
  · simp only [myBalance, debit, Function.update_same]
    omega
  · intro s' hs'
    unfold pushPhase at hs'
    cases ht : ERC20.transfer (debit u a s).token vaultAddr u a with
    | none =>
        rw [ht] at hs'
        exact absurd hs' (by simp)
    | some t =>
        rw [ht] at hs'
        cases hs'
        rfl

/-- Claim C10: every deposit or withdraw call, successful or reverted, leaves
the tracked balance of every account other than the caller unchanged. -/
theorem ops_touch_only_caller (s : Chain) (u : Addr) (a : Nat) (v : Addr)
    (hv : v ≠ u) :
    (exec (deposit u a) s).balances v = s.balances v ∧
    (exec (withdraw u a) s).balances v = s.balances v := by
  constructor
  · cases hd : deposit u a s with
    | error e =>
        rw [exec_eq_of_error hd]
    | ok s1 =>
        rw [exec_eq_of_ok hd]
        obtain ⟨-, -, -, h⟩ := (deposit_ok_iff s u a s1).mp hd
        subst h
        simp [Function.update_noteq hv]
  · cases hd : withdraw u a s with
    | error e =>
        rw [exec_eq_of_error hd]
    | ok s1 =>
        rw [exec_eq_of_ok hd]
        obtain ⟨-, -, -, h⟩ := (withdraw_ok_iff s u a s1).mp hd
        subst h
        simp [Function.update_noteq hv]

/-- Claim C5: for an account other than the vault itself, a successful
`deposit(a)` followed by a successful `withdraw(a)` returns both the caller
tracked ledger balance (`myBalance`) and the caller wallet balance of the
asset to their pre-deposit values. -/
theorem deposit_withdraw_roundtrip (s s1 s2 : Chain) (u : Addr) (a : Nat)
    (hu : u ≠ vaultAddr)
    (h1 : deposit u a s = .ok s1) (h2 : withdraw u a s1 = .ok s2) :
    myBalance u s2 = myBalance u s ∧ s2.token.balanceOf u = s.token.balanceOf u := by
  obtain ⟨ha, hal, hw, hs1⟩ := (deposit_ok_iff s u a s1).mp h1
  obtain ⟨-, hb2, hc2, hs2⟩ := (withdraw_ok_iff s1 u a s2).mp h2
  subst hs2
  subst hs1
  constructor
  · simp only [myBalance, Function.update_same]
    omega
  · simp only
    rw [transferBal_dst _ _ _ _ hu, transferBal_src _ _ _ _ hu]
    omega

/-- Token fixture for witnesses: account 1 holds 10 asset units and has
granted the vault an allowance of 10; everyone else holds nothing. -/
def testToken : ERC20 :=
  { balanceOf := fun w => if w = 1 then 10 else 0
    allowance := fun o sp => if o = 1 ∧ sp = vaultAddr then 10 else 0 }

/-- Chain fixture for witnesses: account 1 has a tracked vault balance of 3,
but the vault custodies no asset (so a push-transfer must fail). -/
def testChain : Chain :=
  { token := testToken, balances := fun w => if w = 1 then 3 else 0, log := [] }

theorem withdraw_error_cases_witness :
    withdraw 1 5 testChain = .error .insufficientBalance ∧
    withdraw 1 2 testChain = .error .pushTransferFailed ∧
    exec (withdraw 1 5) testChain = testChain := by
  have h := withdraw_error_cases testChain 1 5
  have h' := withdraw_error_cases testChain 1 2
  have hins := h.2.1 (by decide) (by decide)
  refine ⟨hins, h'.2.2.1 (by decide) (by decide) (by decide), h.2.2.2 _ hins⟩

theorem deposit_spec_witness :
    deposit 1 0 testChain = .error .invalidAmount ∧
    deposit 2 5 testChain = .error .pullTransferFailed ∧
    exec (deposit 2 5) testChain = testChain := by
  have h := deposit_spec testChain 1 0
  have h' := deposit_spec testChain 2 5
  have hp := h'.2.1 (by decide) (Or.inl (by decide))
  exact ⟨h.1 rfl, hp, h'.2.2.2 _ hp⟩

theorem withdraw_debits_before_push_witness :
    withdraw 1 2 testChain = pushPhase 1 2 (debit 1 2 testChain) ∧
    myBalance 1 (debit 1 2 testChain) + 2 = testChain.balances 1 :=
  let h := withdraw_debits_before_push testChain 1 2 (by decide) (by decide)
  ⟨h.1, h.2.1⟩

theorem ops_touch_only_caller_witness :
    (exec (deposit 1 4) testChain).balances 2 = testChain.balances 2 ∧
    (exec (withdraw 1 2) testChain).balances 2 = testChain.balances 2 :=
  ops_touch_only_caller testChain 1 4 2 (by decide)

theorem deposit_withdraw_roundtrip_witness :
    myBalance 1 (exec (withdraw 1 2) (exec (deposit 1 2) testChain)) =
      myBalance 1 testChain ∧
    (exec (withdraw 1 2) (exec (deposit 1 2) testChain)).token.balanceOf 1 =
      testChain.token.balanceOf 1 := by
  have h1 : deposit 1 2 testChain = .ok (exec (deposit 1 2) testChain) := by rfl
  have h2 : withdraw 1 2 (exec (deposit 1 2) testChain) =
      .ok (exec (withdraw 1 2) (exec (deposit 1 2) testChain)) := by rfl
  exact deposit_withdraw_roundtrip testChain _ _ 1 2 (by decide) h1 h2

/-- Transactions the environment can issue: vault calls from any externally
owned account, direct token transfers (including donations of asset to the
vault address), and token approvals.  `sender = vaultAddr` is impossible in
reality — SavingsVault contains no call to its own deposit/withdraw and no
token call outside the bodies modelled above — hence those cases are no-ops. -/
inductive Op
  | deposit (sender : Addr) (amount : Nat)
  | withdraw (sender : Addr) (amount : Nat)
  | extTransfer (sender dst : Addr) (amount : Nat)
  | extApprove (owner spender : Addr) (amount : Nat)

/-- Effect of one environment transaction on the combined chain state. -/
def stepOp (s : Chain) : Op → Chain
  | .deposit u a => if u = vaultAddr then s else exec (deposit u a) s
  | .withdraw u a => if u = vaultAddr then s else exec (withdraw u a) s
  | .extTransfer u v a =>
      if u = vaultAddr then s
      else
        match s.token.transfer u v a with
        | none => s
        | some t => { s with token := t }
  | .extApprove o sp a =>
      if o = vaultAddr then s
      else { s with token := { s.token with allowance := setAllowance s.token.allowance o sp a } }

/-- State after a whole sequence of environment transactions. -/
def run (s : Chain) (ops : List Op) : Chain :=
  ops.foldl stepOp s

/-- The accounting invariant: over every finite set of accounts, the sum of
tracked vault balances is bounded by the asset custodied at the vault
address. -/
def SumLeCustody (s : Chain) : Prop :=
  ∀ A : Finset Addr, (∑ w ∈ A, s.balances w) ≤ s.token.balanceOf vaultAddr

theorem sumLe_exec_deposit (s : Chain) (u : Addr) (a : Nat)
    (hu : u ≠ vaultAddr) (h : SumLeCustody s) :
    SumLeCustody (exec (deposit u a) s) := by
  cases hd : deposit u a s with
  | error e =>
      rw [exec_eq_of_error hd]
      exact h
  | ok s1 =>
      rw [exec_eq_of_ok hd]
      obtain ⟨-, -, -, hs1⟩ := (deposit_ok_iff s u a s1).mp hd
      subst hs1
      intro A
      simp only
      rw [transferBal_dst _ _ _ _ (Ne.symm hu)]
      by_cases hmem : u ∈ A
      · rw [Finset.sum_update_of_mem hmem]
        have hbase := h A
        rw [Finset.sum_eq_sum_diff_singleton_add hmem] at hbase
        omega
      · rw [Finset.sum_update_of_not_mem hmem]
        have hbase := h A
        omega

theorem sumLe_exec_withdraw (s : Chain) (u : Addr) (a : Nat)
    (hu : u ≠ vaultAddr) (h : SumLeCustody s) :
    SumLeCustody (exec (withdraw u a) s) := by
  cases hd : withdraw u a s with
  | error e =>
      rw [exec_eq_of_error hd]
      exact h
  | ok s1 =>
      rw [exec_eq_of_ok hd]
      obtain ⟨-, hb, hc, hs1⟩ := (withdraw_ok_iff s u a s1).mp hd
      subst hs1
      intro A
      simp only
      rw [transferBal_src _ _ _ _ (Ne.symm hu)]
      by_cases hmem : u ∈ A
      · rw [Finset.sum_update_of_mem hmem]
        have hbase := h A
        rw [Finset.sum_eq_sum_diff_singleton_add hmem] at hbase
        omega
      · rw [Finset.sum_update_of_not_mem hmem]
        have hbase := h (insert u A)
        rw [Finset.sum_insert hmem] at hbase
        omega

theorem sumLe_stepOp (s : Chain) (op : Op) (h : SumLeCustody s) :
    SumLeCustody (stepOp s op) := by
  cases op with
  | deposit u a =>
      simp only [stepOp]
      split
      · exact h
      · exact sumLe_exec_deposit s u a (by assumption) h
  | withdraw u a =>
      simp only [stepOp]
      split
      · exact h
      · exact sumLe_exec_withdraw s u a (by assumption) h
  | extTransfer u v a =>
      simp only [stepOp]
      split
      · exact h
      next hu =>
        cases ht : s.token.transfer u v a with
        | none =>
            simp only [ht]
            exact h
        | some t =>
            simp only [ht]
            unfold ERC20.transfer at ht
            split at ht
            next hle =>
              cases ht
              intro A
              by_cases hv : v = vaultAddr
              · subst hv
                simp only
                rw [transferBal_dst _ _ _ _ (Ne.symm hu)]
                have := h A
                omega
              · simp only
                rw [transferBal_ne _ _ _ _ _ (Ne.symm hu) (fun hvv => hv hvv.symm)]
                exact h A
            next =>
              exact absurd ht (by simp)
  | extApprove o sp a =>
      simp only [stepOp]
      split
      · exact h
      · exact h

theorem sumLe_run (ops : List Op) (s : Chain) (h : SumLeCustody s) :
    SumLeCustody (run s ops) := by
  induction ops generalizing s with
  | nil => exact h
  | cons op rest ih => exact ih (stepOp s op) (sumLe_stepOp s op h)

/-- Claim C1: starting from deployment (no tracked balances), after any
sequence of deposit, withdraw, and external token operations by any set of
accounts, the sum of tracked vault balances over any finite set of accounts
never exceeds the asset custodied at the vault address (donations can only
raise the custody side). -/
theorem sum_tracked_le_custody (s0 : Chain) (h0 : ∀ w, s0.balances w = 0)
    (ops : List Op) (A : Finset Addr) :
    (∑ w ∈ A, (run s0 ops).balances w) ≤ (run s0 ops).token.balanceOf vaultAddr := by
  refine sumLe_run ops s0 ?_ A
  intro B
  simp [h0]

/-- Deployment fixture for the C1 witness: account 1 funded and approved,
no tracked balances. -/
def genesisChain : Chain :=
  { token := testToken, balances := fun _ => 0, log := [] }

theorem sum_tracked_le_custody_witness :
    (∑ w ∈ ({0, 1, 2} : Finset Addr),
        (run genesisChain [Op.deposit 1 4, Op.withdraw 1 2]).balances w) ≤
      (run genesisChain [Op.deposit 1 4, Op.withdraw 1 2]).token.balanceOf vaultAddr :=
  sum_tracked_le_custody genesisChain (fun _ => rfl) _ _

end VaultModel

/-!
Frontend model, translated from the final `App.tsx` of the app.  JavaScript
numbers are embedded as `Rat`: every finite IEEE double is a rational and the
order comparisons the handlers perform are preserved by that embedding; the
one non-finite value `parseFloat` can produce that the handlers branch on,
`NaN`, is modelled as `none` in the `parsed` argument (the handlers test
`isNaN` before any comparison).  Each handler is rendered as the list of
observable effects it performs in program order on the path where every
awaited chain call resolves; submissions carry the raw input strings exactly
as the code passes them (`parseEther` of the raw string is what goes
on-chain).
-/

namespace FrontendModel

/-- The `type` field of the client TransactionStatus record. -/
inductive StatusType
  | success
  | error
  | pending
  deriving DecidableEq, Repr

/-- The two transfer tabs of the UI. -/
inductive Tab
  | INJ
  | wINJ
  deriving DecidableEq, Repr

/-- One observable effect of a handler: a blocking alert, a status update, a
chain submission, an awaited inclusion confirmation, a balance re-read, or an
input-field reset. -/
inductive Eff
  | alertMsg (msg : String)
  | setStatus (t : StatusType) (msg : String)
  | submitDeposit (raw : String)
  | submitWithdraw (raw : String)
  | submitNativeTransfer (dst raw : String)
  | submitTokenTransfer (dst raw : String)
  | submitApprove
  | awaitConfirmation
  | refreshNative
  | refreshWinj
  | refreshVault
  | checkAllowance
  | clearVaultInput
  | clearTransferInputs
  deriving DecidableEq, Repr

/-- Whether an effect submits a chain transaction. -/
def Eff.isSubmit : Eff → Bool
  | .submitDeposit _ => true
  | .submitWithdraw _ => true
  | .submitNativeTransfer _ _ => true
  | .submitTokenTransfer _ _ => true
  | .submitApprove => true
  | _ => false

/-- `handleDeposit` of the final App.tsx: reject an empty amount field, a
non-numeric (`parsed = none`) or non-positive amount, or an amount above the
cached wallet wINJ balance; otherwise submit the deposit, re-read the wINJ and
vault balances immediately, and clear the input. -/
def handleDeposit (vaultAmount : String) (parsed : Option Rat) (winjBalance : Rat) :
    List Eff :=
  if vaultAmount = "" then
    [.alertMsg "Please enter an amount"]
  else
    match parsed with
    | none => [.alertMsg "Please enter a valid amount"]
    | some amount =>
        if amount ≤ 0 then
          [.alertMsg "Please enter a valid amount"]
        else if winjBalance < amount then
          [.alertMsg "Insufficient wINJ balance"]
        else
          [.submitDeposit vaultAmount, .refreshWinj, .refreshVault, .clearVaultInput]

/-- `handleWithdraw` of the final App.tsx: like deposit, but the amount is
checked against the cached vault (ledger) balance. -/
def handleWithdraw (vaultAmount : String) (parsed : Option Rat) (vaultBalance : Rat) :
    List Eff :=
  if vaultAmount = "" then
    [.alertMsg "Please enter an amount"]
  else
    match parsed with
    | none => [.alertMsg "Please enter a valid amount"]
    | some amount =>
        if amount ≤ 0 then
          [.alertMsg "Please enter a valid amount"]
        else if vaultBalance < amount then
          [.alertMsg "Insufficient wINJ balance in vault"]
        else
          [.submitWithdraw vaultAmount, .refreshWinj, .refreshVault, .clearVaultInput]

/-- `handleTransfer` of the final App.tsx: reject when not connected, when a
field is empty, when the amount is non-numeric or non-positive, or when the
amount is above the balance of the active tab (native INJ balance or wallet
wINJ balance); otherwise set a pending status, submit the tab-specific
transfer, set a success status, re-read the tab-specific balance immediately,
and clear the inputs. -/
def handleTransfer (isConnected : Bool) (addr amountStr : String) (parsed : Option Rat)
    (activeTab : Tab) (balance winjBalance : Rat) : List Eff :=
  if isConnected = false then
    [.setStatus .error "Please connect your wallet first"]
  else if addr = "" ∨ amountStr = "" then
    [.setStatus .error "Please enter both address and amount"]
  else
    match parsed with
    | none => [.setStatus .error "Please enter a valid amount"]
    | some amount =>
        if amount ≤ 0 then
          [.setStatus .error "Please enter a valid amount"]
        else if activeTab = .INJ ∧ balance < amount then
          [.setStatus .error "Insufficient INJ balance"]
        else if activeTab = .wINJ ∧ winjBalance < amount then
          [.setStatus .error "Insufficient wINJ balance"]
        else
          [.setStatus .pending "Transaction pending...",
           (match activeTab with
            | .INJ => .submitNativeTransfer addr amountStr
            | .wINJ => .submitTokenTransfer addr amountStr),
           .setStatus .success "Transaction sent!",
           (match activeTab with
            | .INJ => .refreshNative
            | .wINJ => .refreshWinj),
           .clearTransferInputs]

/-- `handleApprove` of the final App.tsx, on the path where the approval
submission resolves: one approval submission and nothing else — no balance
re-read and no awaited confirmation. -/
def handleApproveEffects : List Eff :=
  [.submitApprove]

/-- `handleConnect` of the final App.tsx, on the successful path: the native
balance is read inside `connectMetaMask`, then the wINJ balance, the vault
balance and the allowance are re-read. -/
def handleConnectEffects : List Eff :=
  [.refreshNative, .refreshWinj, .refreshVault, .checkAllowance]

/-- Claim C6: for every user-initiated action, an empty recipient or amount
field, a non-numeric (`parsed = none`) or non-positive amount, and an amount
exceeding the relevant source balance (native balance for the native
transfer, wallet wINJ balance for the token transfer and the deposit, vault
ledger balance for the withdraw) are each rejected locally with their
specific user-facing message, and a rejection trace of that shape contains no
chain submission. -/
theorem validation_rejects_locally (vaultAmount addr amountStr : String)
    (parsed : Option Rat) (q : Rat) (tab : Tab) (balance winjBalance vaultBalance : Rat) :
    (vaultAmount = "" →
      handleDeposit vaultAmount parsed winjBalance =
        [.alertMsg "Please enter an amount"] ∧
      handleWithdraw vaultAmount parsed vaultBalance =
        [.alertMsg "Please enter an amount"]) ∧
    (vaultAmount ≠ "" → parsed = none →
      handleDeposit vaultAmount parsed winjBalance =
        [.alertMsg "Please enter a valid amount"] ∧
      handleWithdraw vaultAmount parsed vaultBalance =
        [.alertMsg "Please enter a valid amount"]) ∧
    (vaultAmount ≠ "" → parsed = some q → q ≤ 0 →
      handleDeposit vaultAmount parsed winjBalance =
        [.alertMsg "Please enter a valid amount"] ∧
      handleWithdraw vaultAmount parsed vaultBalance =
        [.alertMsg "Please enter a valid amount"]) ∧
    (vaultAmount ≠ "" → parsed = some q → 0 < q → winjBalance < q →
      handleDeposit vaultAmount parsed winjBalance =
        [.alertMsg "Insufficient wINJ balance"]) ∧
    (vaultAmount ≠ "" → parsed = some q → 0 < q → vaultBalance < q →
      handleWithdraw vaultAmount parsed vaultBalance =
        [.alertMsg "Insufficient wINJ balance in vault"]) ∧
    (addr = "" ∨ amountStr = "" →
      handleTransfer true addr amountStr parsed tab balance winjBalance =
        [.setStatus .error "Please enter both address and amount"]) ∧
    (addr ≠ "" → amountStr ≠ "" → parsed = none →
      handleTransfer true addr amountStr parsed tab balance winjBalance =
        [.setStatus .error "Please enter a valid amount"]) ∧
    (addr ≠ "" → amountStr ≠ "" → parsed = some q → q ≤ 0 →
      handleTransfer true addr amountStr parsed tab balance winjBalance =
        [.setStatus .error "Please enter a valid amount"]) ∧
    (addr ≠ "" → amountStr ≠ "" → parsed = some q → 0 < q → balance < q →
      handleTransfer true addr amountStr parsed .INJ balance winjBalance =
        [.setStatus .error "Insufficient INJ balance"]) ∧
    (addr ≠ "" → amountStr ≠ "" → parsed = some q → 0 < q → winjBalance < q →
      handleTransfer true addr amountStr parsed .wINJ balance winjBalance =
        [.setStatus .error "Insufficient wINJ balance"]) ∧
    (∀ (m : String) (t : StatusType),
      (handleDeposit vaultAmount parsed winjBalance = [.alertMsg m] →
        ∀ e ∈ handleDeposit vaultAmount parsed winjBalance, e.isSubmit = false) ∧
      (handleWithdraw vaultAmount parsed vaultBalance = [.alertMsg m] →
        ∀ e ∈ handleWithdraw vaultAmount parsed vaultBalance, e.isSubmit = false) ∧
      (handleTransfer true addr amountStr parsed tab balance winjBalance =
          [.setStatus t m] →
        ∀ e ∈ handleTransfer true addr amountStr parsed tab balance winjBalance,
          e.isSubmit = false)) := by
  refine ⟨?_, ?_, ?_, ?_, ?_, ?_, ?_, ?_, ?_, ?_, ?_⟩
  · intro h
    simp [handleDeposit, handleWithdraw, h]
  · intro h hn
    subst hn
    simp [handleDeposit, handleWithdraw, h]
  · intro h hp hq
    subst hp
    simp [handleDeposit, handleWithdraw, h, hq]
  · intro h hp hq hb
    subst hp
    simp [handleDeposit, h, not_le.mpr hq, hb]
  · intro h hp hq hb
    subst hp
    simp [handleWithdraw, h, not_le.mpr hq, hb]
  · intro h
    simp [handleTransfer, h]
  · intro h1 h2 hn
    subst hn
    have hne : ¬ (addr = "" ∨ amountStr = "") := by tauto
    simp [handleTransfer, hne]
  · intro h1 h2 hp hq
    subst hp
    have hne : ¬ (addr = "" ∨ amountStr = "") := by tauto
    simp [handleTransfer, hne, hq]
  · intro h1 h2 hp hq hb
    subst hp
    have hne : ¬ (addr = "" ∨ amountStr = "") := by tauto
    simp [handleTransfer, hne, not_le.mpr hq, hb]
  · intro h1 h2 hp hq hb
    subst hp
    have hne : ¬ (addr = "" ∨ amountStr = "") := by tauto
    simp [handleTransfer, hne, not_le.mpr hq, hb]
  · intro m t
    refine ⟨?_, ?_, ?_⟩ <;> intro hrw e he <;> rw [hrw] at he <;>
      simp at he <;> simp [he, Eff.isSubmit]

theorem validation_rejects_locally_witness :
    handleDeposit "" none (0 : Rat) = [.alertMsg "Please enter an amount"] ∧
    handleTransfer true "0xrecipient" "2.5" (some (5 / 2)) .INJ (2 : Rat) (0 : Rat) =
      [.setStatus .error "Insufficient INJ balance"] := by
  have h := validation_rejects_locally "" "0xrecipient" "2.5" none (5 / 2) .INJ 2 0 0
  have h' := validation_rejects_locally "x" "0xrecipient" "2.5" (some (5 / 2)) (5 / 2) .INJ 2 0 0
  exact ⟨(h.1 rfl).1,
    (h'.2.2.2.2.2.2.2.2.1) (by decide) (by decide) rfl (by norm_num) (by norm_num)⟩

/-- `buttonsDisabled` of the final App.tsx: the allowance gate as wired into
the UI, true whenever the wallet is not connected or the vault has no
approval yet. -/
def buttonsDisabled (isConnected isApproved : Bool) : Bool :=
  !isConnected || !isApproved

/-- The `disabled` attribute of the Deposit button. -/
def depositDisabled (isConnected isApproved : Bool) : Bool :=
  buttonsDisabled isConnected isApproved

/-- The `disabled` attribute of the Withdraw button. -/
def withdrawDisabled (isConnected isApproved : Bool) : Bool :=
  buttonsDisabled isConnected isApproved

/-- The `disabled` attribute of the Transfer button, which serves both the
native INJ tab and the wINJ tab. -/
def transferDisabled (isConnected isApproved isTransferring : Bool)
    (addr amountStr : String) : Bool :=
  buttonsDisabled isConnected isApproved || isTransferring ||
    (addr == "") || (amountStr == "")

/-- Claim C7 counterexample: with the wallet connected, no transfer in
flight, and both fields filled, but authorization unsatisfied, the Withdraw
button and the Transfer button (which also serves the native tab) are
disabled — withdraw and native-asset transfer ARE gated by the allowance
gate, contradicting the claim that they remain available regardless of the
allowance. -/
theorem withdraw_and_native_transfer_gated :
    withdrawDisabled true false = true ∧
    transferDisabled true false false "0xabc" "1.0" = true := by
  decide

/-- Claim C7 amended: while authorization is unsatisfied the UI locally
refuses every action, not only the ledger-asset ones: deposit, withdraw and
the transfer of either asset are all disabled (so no chain transaction can be
initiated from any of them), whatever the other inputs are. -/
theorem allowance_gate_blocks_all_actions (isConnected isTransferring : Bool)
    (addr amountStr : String) :
    depositDisabled isConnected false = true ∧
    withdrawDisabled isConnected false = true ∧
    transferDisabled isConnected false isTransferring addr amountStr = true := by
  cases isConnected <;>
    simp [depositDisabled, withdrawDisabled, transferDisabled, buttonsDisabled]

/-- Claim C8 counterexample: on a valid deposit (amount 1, wallet balance 2)
the handler re-reads the wINJ and vault balances immediately after the
submission effect, and no confirmation is awaited anywhere in the trace — the
balance resynchronization IS performed before the transaction is confirmed,
not only on Confirmed transitions. -/
theorem refresh_runs_before_confirmation :
    handleDeposit "1" (some 1) 2 =
      [.submitDeposit "1", .refreshWinj, .refreshVault, .clearVaultInput] ∧
    Eff.awaitConfirmation ∉ handleDeposit "1" (some 1) 2 := by
  refine ⟨by decide, by decide⟩

/-- Claim C8 amended: the balance resynchronization runs on successful
connection and, for each validly-submitted action, immediately after the
submission effect — no handler ever awaits a confirmation, so the re-read is
optimistic rather than confirmation-triggered; the authorization handler
performs no resynchronization at all. -/
theorem refresh_follows_submission (vaultAmount addr amountStr : String)
    (q : Rat) (balance winjBalance vaultBalance : Rat)
    (hv : vaultAmount ≠ "") (hq : 0 < q) :
    (¬ winjBalance < q →
      handleDeposit vaultAmount (some q) winjBalance =
        [.submitDeposit vaultAmount, .refreshWinj, .refreshVault, .clearVaultInput]) ∧
    (¬ vaultBalance < q →
      handleWithdraw vaultAmount (some q) vaultBalance =
        [.submitWithdraw vaultAmount, .refreshWinj, .refreshVault, .clearVaultInput]) ∧
    (addr ≠ "" → amountStr ≠ "" → ¬ balance < q →
      handleTransfer true addr amountStr (some q) .INJ balance winjBalance =
        [.setStatus .pending "Transaction pending...",
         .submitNativeTransfer addr amountStr,
         .setStatus .success "Transaction sent!",
         .refreshNative, .clearTransferInputs]) ∧
    (addr ≠ "" → amountStr ≠ "" → ¬ winjBalance < q →
      handleTransfer true addr amountStr (some q) .wINJ balance winjBalance =
        [.setStatus .pending "Transaction pending...",
         .submitTokenTransfer addr amountStr,
         .setStatus .success "Transaction sent!",
         .refreshWinj, .clearTransferInputs]) ∧
    (∀ (va : String) (p : Option Rat) (w : Rat),
      Eff.awaitConfirmation ∉ handleDeposit va p w ∧
      Eff.awaitConfirmation ∉ handleWithdraw va p w) ∧
    (∀ (c : Bool) (ad am : String) (p : Option Rat) (t : Tab) (b w : Rat),
      Eff.awaitConfirmation ∉ handleTransfer c ad am p t b w) ∧
    (∀ e ∈ handleApproveEffects,
      e ≠ .refreshNative ∧ e ≠ .refreshWinj ∧ e ≠ .refreshVault) ∧
    handleConnectEffects =
      [.refreshNative, .refreshWinj, .refreshVault, .checkAllowance] := by
  refine ⟨?_, ?_, ?_, ?_, ?_, ?_, ?_, rfl⟩
  · intro hb
    simp [handleDeposit, hv, not_le.mpr hq, hb]
  · intro hb
    simp [handleWithdraw, hv, not_le.mpr hq, hb]
  · intro h1 h2 hb
    have hne : ¬ (addr = "" ∨ amountStr = "") := by tauto
    simp [handleTransfer, hne, not_le.mpr hq, hb]
  · intro h1 h2 hb
    have hne : ¬ (addr = "" ∨ amountStr = "") := by tauto
    simp [handleTransfer, hne, not_le.mpr hq, hb]
  · intro va p w
    constructor
    · unfold handleDeposit
      split
      · simp
      · split <;> [simp; (split <;> [simp; (split <;> simp)])]
    · unfold handleWithdraw
      split
      · simp
      · split <;> [simp; (split <;> [simp; (split <;> simp)])]
  · intro c ad am p t b w
    unfold handleTransfer
    split <;> try simp
    split <;> try simp
    split <;> try simp
    split <;> try simp
    split <;> try simp
    split <;> cases t <;> simp
  · intro e he
    simp [handleApproveEffects] at he
    simp [he]

theorem refresh_follows_submission_witness :
    handleWithdraw "1" (some 1) 2 =
      [.submitWithdraw "1", .refreshWinj, .refreshVault, .clearVaultInput] ∧
    Eff.awaitConfirmation ∉ handleWithdraw "1" (some 1) 2 := by
  have h := refresh_follows_submission "1" "a" "1" 1 0 0 2 (by decide) (by norm_num)
  exact ⟨h.2.1 (by norm_num), (h.2.2.2.2.1 "1" (some 1) 2).2⟩

/-- UI state that governs the authorization action: whether the approval
modal is shown, the in-flight flag `isApproving`, the satisfied flag, and (as
observable outcome) how many approval transactions have been submitted. -/
structure ApproveUI where
  showApprovalModal : Bool
  isApproving : Bool
  isApproved : Bool
  submitted : Nat

/-- One click on the Approve button: the button exists only while the modal
is shown and carries `disabled={isApproving}`; an accepted click runs
`handleApprove`, which sets the in-flight flag synchronously before its first
await and submits exactly one approval transaction. -/
def clickApprove (ui : ApproveUI) : ApproveUI :=
  if ui.showApprovalModal = true ∧ ui.isApproving = false then
    { ui with isApproving := true, submitted := ui.submitted + 1 }
  else ui

/-- Continuation of `handleApprove` once its submission resolves (still
before any on-chain confirmation): clear the in-flight flag, close the modal
and mark the authorization satisfied. -/
def approveSettled (ui : ApproveUI) : ApproveUI :=
  { ui with isApproving := false, showApprovalModal := false, isApproved := true }

/-- Claim C9: invoking the authorization action twice in immediate
succession — the second click while the first is still in flight, or after
the first submission resolved but before anything confirms — submits at most
one approval transaction: the in-flight flag (and the modal teardown after
submission) swallow the second click. -/
theorem approve_idempotent (ui : ApproveUI) (h : ui.submitted = 0) :
    (clickApprove (clickApprove ui)).submitted ≤ 1 ∧
    (clickApprove (approveSettled (clickApprove ui))).submitted ≤ 1 := by
  cases hm : ui.showApprovalModal <;> cases ha : ui.isApproving <;>
    simp [clickApprove, approveSettled, hm, ha, h]

theorem approve_idempotent_witness :
    (clickApprove (clickApprove
        { showApprovalModal := true, isApproving := false,
          isApproved := false, submitted := 0 })).submitted ≤ 1 :=
  (approve_idempotent
    { showApprovalModal := true, isApproving := false,
      isApproved := false, submitted := 0 } rfl).1

end FrontendModel
